import Mathlib

/-!
Verification of the subtitle markup parsing and layout engine of
SubtitleRenderer.cpp (omxplayer). The C++ source is shallowly embedded:
strings are lists of characters, C ints are modelled as Nat or Int
(all relevant values are in range, so no wrap-around modelling is
needed except for the 32-bit bitmasks used in the geometry
derivation, which are modelled with an explicit 32-bit mask).
-/

namespace SubtitleRendererModel

/-- Font faces selectable by set_font. The numeric values of the
NORMAL_FONT, BOLD_FONT and ITALIC_FONT enum constants live in the
header (not part of the embedded translation unit); only their
distinctness matters, so they are modelled as an inductive type. -/
inductive Font where
  | normal
  | bold
  | italic
deriving DecidableEq, Repr

/-- One styled run of text, mirroring the SubtitleText value built by
formatted_lines[i].emplace_back(move(t), font, color). -/
structure SubtitleText where
  text : List Char
  font : Font
  color : Int
deriving DecidableEq, Repr

/-- Parser style state: the bold, italic and color locals of
parse_lines. color = -1 encodes the default color. -/
structure ParserState where
  bold : Bool
  italic : Bool
  color : Int
deriving DecidableEq, Repr

/-- Initial style state of parse_lines: bold = italic = false,
color = -1. -/
def initParserState : ParserState := ⟨false, false, -1⟩

/-- ASCII lowercasing of one character, as boost to_lower does for the
default locale. -/
def toLowerChar (c : Char) : Char :=
  if 65 ≤ c.toNat ∧ c.toNat ≤ 90 then Char.ofNat (c.toNat + 32) else c

/-- Whitespace recognized by boost trim (C isspace): space, tab,
newline, vertical tab, form feed, carriage return. -/
def isSpaceC (c : Char) : Bool :=
  c = ' ' ∨ c = '\t' ∨ c = '\n' ∨ c = Char.ofNat 11 ∨ c = Char.ofNat 12 ∨ c = '\r'

/-- boost trim: drop whitespace from both ends of the line. -/
def trimList (l : List Char) : List Char :=
  ((l.dropWhile isSpaceC).reverse.dropWhile isSpaceC).reverse

/-- Character class [a-f0-9] used by the color regexes (the tag is
already lowercased when they run). -/
def isHexLower (c : Char) : Bool :=
  (97 ≤ c.toNat ∧ c.toNat ≤ 102) ∨ (48 ≤ c.toNat ∧ c.toNat ≤ 57)

/-- hex2int: expects 6 lowercase hex digit characters. The C loop
walks i = 0..5 with shift f = 20,16,12,8,4,0 and adds
(hex[i] - 87) << f for letters, (hex[i] - 48) << f for digits. -/
def digitVal (c : Char) : Int :=
  if c.toNat ≥ 97 then (c.toNat : Int) - 87 else (c.toNat : Int) - 48

/-- hex2int of SubtitleRenderer.cpp, on the list of characters of its
argument; the zip realizes the lockstep i, f loop counters. -/
def hex2int (hex : List Char) : Int :=
  (List.zip hex [20, 16, 12, 8, 4, 0]).foldl
    (fun r p => r + digitVal p.1 * 2 ^ p.2) 0

/-- Split a character list at the first occurrence of the delimiter d;
returns the characters strictly before d and the rest strictly after
it, or none when d does not occur. -/
def breakOnChar (d : Char) : List Char → Option (List Char × List Char)
  | [] => none
  | c :: cs =>
    if c = d then some ([], cs)
    else (breakOnChar d cs).map (fun p => (c :: p.1, p.2))

/-- Try to match one of the two tag alternatives of the m_tags regex
at the head of the list. The first alternative is a < followed by
non-> characters up to the first >, the second is an opening brace, a
backslash, then characters up to the first closing brace. Returns the
full tag (delimiters included) and the rest of the input. -/
def tryTag : List Char → Option (List Char × List Char)
  | '<' :: cs => (breakOnChar '>' cs).map (fun p => ('<' :: p.1 ++ ['>'], p.2))
  | '{' :: '\\' :: cs =>
    (breakOnChar '}' cs).map (fun p => ('{' :: '\\' :: p.1 ++ ['}'], p.2))
  | _ => none

/-- Leftmost match of the m_tags regex: the pair of alternatives is
tried at each position in turn, exactly as RegFind reports the
earliest match. Returns the text before the tag, the tag and the rest. -/
def findTag : List Char → Option (List Char × List Char × List Char)
  | [] => none
  | c :: cs =>
    match tryTag (c :: cs) with
    | some (tag, rest) => some ([], tag, rest)
    | none => (findTag cs).map (fun t => (c :: t.1, t.2.1, t.2.2))

/-- Anchored match of the m_font_color_curly regex against a whole
(already lowercased) tag: an opening brace, backslash, c&h, three
2-digit lowercase hex groups, then &}. Returns the three groups. -/
def curlyColor (tag : List Char) : Option (List Char × List Char × List Char) :=
  match tag with
  | ['{', '\\', 'c', '&', 'h', a1, a2, b1, b2, c1, c2, '&', '}'] =>
    if [a1, a2, b1, b2, c1, c2].all isHexLower then
      some ([a1, a2], [b1, b2], [c1, c2])
    else none
  | _ => none

/-- Attempt of the m_font_color_html regex body at the head of the
list: the literal color, optional spaces and tabs, =, optional
spaces, tabs and quotes, an optional #, then six lowercase hex
digits (the capture group). -/
def htmlColorAt (l : List Char) : Option (List Char) :=
  if l.take 5 = ['c', 'o', 'l', 'o', 'r'] then
    let r1 := (l.drop 5).dropWhile (fun c => c = ' ' ∨ c = '\t')
    match r1 with
    | '=' :: r2 =>
      let r3 := r2.dropWhile
        (fun c => c = ' ' ∨ c = '\t' ∨ c = Char.ofNat 34 ∨ c = Char.ofNat 39)
      let r4 := match r3 with
        | '#' :: r => r
        | _ => r3
      if (r4.take 6).length = 6 ∧ (r4.take 6).all isHexLower then
        some (r4.take 6)
      else none
    | _ => none
  else none

/-- Search of the m_font_color_html regex inside a font tag: the body
is tried at every start position, as RegFind does. parse_lines starts
the search at offset 5 of the tag, which is realized at the call site
by dropping the first five characters. -/
def findHtmlColor : List Char → Option (List Char)
  | [] => none
  | c :: cs =>
    match htmlColorAt (c :: cs) with
    | some g => some g
    | none => findHtmlColor cs

/-- Tag dispatch chain of parse_lines (lines 400-418 of the source):
the tag is lowercased, then compared against the bold, italic, color
reset, html font color and curly color forms in order. Unrecognized
tags leave the state unchanged. -/
def applyTag (st : ParserState) (rawTag : List Char) : ParserState :=
  let t := rawTag.map toLowerChar
  if t = ['<', 'b', '>'] ∨ t = ['{', '\\', 'b', '1', '}'] then
    { st with bold := true }
  else if (t = ['<', '/', 'b', '>'] ∨ t = ['{', '\\', 'b', '0', '}']) ∧ st.bold then
    { st with bold := false }
  else if t = ['<', 'i', '>'] ∨ t = ['{', '\\', 'i', '1', '}'] then
    { st with italic := true }
  else if (t = ['<', '/', 'i', '>'] ∨ t = ['{', '\\', 'i', '0', '}']) ∧ st.italic then
    { st with italic := false }
  else if (t = ['<', '/', 'f', 'o', 'n', 't', '>'] ∨ t = ['{', '\\', 'c', '}']) ∧
      st.color ≠ -1 then
    { st with color := -1 }
  else if t.take 5 = ['<', 'f', 'o', 'n', 't'] then
    match findHtmlColor (t.drop 5) with
    | some g => { st with color := hex2int g }
    | none => st
  else
    match curlyColor t with
    | some (g1, g2, g3) => { st with color := hex2int (g3 ++ g2 ++ g1) }
    | none => st

/-- Font chosen for a text span: italic wins over bold, as in
line 387 of the source. -/
def fontOf (st : ParserState) : Font :=
  if st.italic then Font.italic else if st.bold then Font.bold else Font.normal

/-- Build the run emitted for a nonempty text span. -/
def mkRun (st : ParserState) (t : List Char) : SubtitleText :=
  ⟨t, fontOf st, st.color⟩

/-- Scanning loop of parse_lines over one line: repeatedly find the
next tag, emit the text before it as a run (when nonempty) under the
current state, update the state by the tag and continue after it;
when no tag remains, the rest of the line is emitted (when nonempty).
The fuel argument dominates the number of tags; every tag consumes at
least two characters, so length + 1 fuel never runs out. -/
def parseLineGo : Nat → ParserState → List Char → ParserState × List SubtitleText
  | 0, st, _ => (st, [])
  | fuel + 1, st, l =>
    match findTag l with
    | none => (st, if l.isEmpty then [] else [mkRun st l])
    | some (before, tag, rest) =>
      let pre := if before.isEmpty then [] else [mkRun st before]
      let st1 := applyTag st tag
      let res := parseLineGo fuel st1 rest
      (res.1, pre ++ res.2)

/-- Parse one line under an incoming style state, returning the
outgoing state and the runs of the line. -/
def parseLine (st : ParserState) (l : List Char) : ParserState × List SubtitleText :=
  parseLineGo (l.length + 1) st l

/-- parse_lines of SubtitleRenderer.cpp without the final rendering
call: each line is trimmed and scanned, with the bold, italic and
color state threaded across the lines of one subtitle. The result has
one (possibly empty) run list per input line. -/
def parse_lines (lines : List (List Char)) : List (List SubtitleText) :=
  go initParserState lines
where
  go : ParserState → List (List Char) → List (List SubtitleText)
    | _, [] => []
    | st, l :: ls =>
      let r := parseLine st (trimList l)
      r.2 :: go r.1 ls

/-- Canvas geometry constants computed once by the constructor. The
scaled (dvd) canvas dimensions are derived through float scale
factors in the source and are therefore passed to the bitmap engine
as separate integer parameters rather than stored here. -/
structure Geometry where
  fontSize : Nat
  padding : Nat
  lineHeight : Nat
  imageHeight : Nat
  imageWidth : Nat
  leftMargin : Nat
  topMargin : Int
  leftAlignedMargin : Nat
  maxLines : Nat
deriving DecidableEq, Repr

/-- Geometry derivation of the constructor (source lines 55-86).
fontSize stands for the already truncated int(screen_height *
r_font_size), which is nonnegative for the nonnegative font fractions
the program is run with. The C expression x & ~15 on a 32-bit int is
modelled as a Nat masked with 0xFFFFFFF0; Nat subtraction in
screenW - 100 agrees with the C int for screenW ≥ 100, which every
claim assumes. The member left_aligned_margin is value initialized in
the class declaration, which is not part of the embedded translation
unit; spec section 4.2 states it starts at 0 and that value is used
here for the branch that assigns neither alternative. -/
def deriveGeometry (screenW screenH fontSize maxLines : Nat) : Geometry :=
  let padding := fontSize / 4
  let lineHeight := fontSize + padding
  let ih0 := maxLines * lineHeight + 5
  let imageHeight := (ih0 + 15) &&& 0xFFFFFFF0
  let imageWidth := (screenW - 100) &&& 0xFFFFFFF0
  let leftMargin := (screenW - imageWidth) / 2
  let topMargin : Int := (screenH : Int) - imageHeight - (lineHeight / 2 : Nat)
  let lam0 := if screenW > 1300 then (screenW - 1300) / 2
    else if screenW > screenH then (screenW - screenH) / 2
    else 0
  let lam := if lam0 > leftMargin then lam0 - leftMargin else lam0
  ⟨fontSize, padding, lineHeight, imageHeight, imageWidth, leftMargin,
    topMargin, lam, maxLines⟩

/-- One run placed on the text canvas: the glyph origin handed to
cairo_scaled_font_text_to_glyphs, possibly shifted by the centering
delta afterwards. -/
structure PlacedRun where
  lineIdx : Nat
  runIdx : Nat
  text : List Char
  font : Font
  color : Int
  x : Int
  y : Int
deriving DecidableEq, Repr

/-- Inner j loop of the text make_subtitle_image: walk the runs of
one line, recording each glyph origin at cursor_x + padding and
cursor_y - padding / 4, advancing cursor_x and box_width by the
measured x_advance. A failing text_to_glyphs status aborts the whole
rendering (none). measure abstracts the glyph extents of the shaping
backend, shapeOk its status. -/
def glyphRunsGo (g : Geometry) (measure : Font → List Char → Int)
    (shapeOk : Font → List Char → Bool) (i : Nat) (cursorY : Int) :
    Nat → Int → Int → List SubtitleText → Option (List PlacedRun × Int)
  | _, _, bw, [] => some ([], bw)
  | j, cx, bw, r :: rs =>
    if shapeOk r.font r.text then
      let adv := measure r.font r.text
      let pr : PlacedRun :=
        ⟨i, j, r.text, r.font, r.color, cx + (g.padding : Int),
          cursorY - (g.padding / 4 : Nat)⟩
      (glyphRunsGo g measure shapeOk i cursorY (j + 1) (cx + adv) (bw + adv) rs).map
        (fun p => (pr :: p.1, p.2))
    else none

/-- Layout of one line (source lines 204-249): runs are glyphed from
cursor_x = left_aligned_margin with box_width starting at 2 * padding;
with centered alignment every glyph x is then shifted by
image_width / 2 - box_width / 2. The box_width division is the C
truncating int division, written Int.tdiv. -/
def layoutLine (g : Geometry) (measure : Font → List Char → Int)
    (shapeOk : Font → List Char → Bool) (centered : Bool) (i : Nat)
    (cursorY : Int) (runs : List SubtitleText) : Option (List PlacedRun) :=
  match glyphRunsGo g measure shapeOk i cursorY 0 (g.leftAlignedMargin : Int)
      (2 * (g.padding : Int)) runs with
  | none => none
  | some (placed, bw) =>
    if centered then
      some (placed.map (fun p =>
        { p with x := p.x + (((g.imageWidth / 2 : Nat) : Int) - Int.tdiv bw 2) }))
    else some placed

/-- Text make_subtitle_image (source lines 186-282): at most max_lines
lines are drawn, bottom to top, starting at cursor_y =
image_height - padding and stepping up by font_size + padding. The
returned flag is m_prepared_from_text, which stays false when a
shaping failure aborted the loop early; the runs placed before the
abort have been drawn to the surface and are kept. -/
def make_subtitle_image_text (g : Geometry) (centered : Bool)
    (measure : Font → List Char → Int) (shapeOk : Font → List Char → Bool)
    (parsed : List (List SubtitleText)) : List PlacedRun × Bool :=
  go ((List.range (min parsed.length g.maxLines)).reverse)
    ((g.imageHeight : Int) - (g.padding : Int)) []
where
  go : List Nat → Int → List PlacedRun → List PlacedRun × Bool
    | [], _, acc => (acc, true)
    | i :: is, cy, acc =>
      match layoutLine g measure shapeOk centered i cy (parsed.getD i []) with
      | none => (acc, false)
      | some placed =>
        go is (cy - ((g.fontSize : Int) + (g.padding : Int))) (acc ++ placed)

/-- Result of the bitmap make_subtitle_image: whether the padded pixel
buffer was malloc-ed, whether m_prepared_from_image was set, and the
bytes written into the buffer (empty when nothing was written). -/
structure BitmapResult where
  allocated : Bool
  prepared : Bool
  buffer : List Nat
deriving DecidableEq, Repr

/-- left_padding of the bitmap engine (source line 308). Only
evaluated after the dimension guard, where subW ≤ scaledW makes the
Nat subtraction agree with the C int arithmetic. -/
def leftPaddingOf (scaledW subW : Nat) : Nat :=
  scaledW / 2 - subW / 2

/-- right_padding of the bitmap engine (source line 309). -/
def rightPaddingOf (scaledW subW : Nat) : Nat :=
  scaledW - subW - leftPaddingOf scaledW subW

/-- top_padding of the bitmap engine (source line 312); this one can
be negative. -/
def topPaddingOf (scaledH scaledPad subH : Nat) : Int :=
  (scaledH : Int) - (subH : Int) - (scaledPad : Int)

/-- Bitmap make_subtitle_image (source lines 285-332). The first
guard rejects before the malloc; the padding guard sits after it, so
a padding rejection leaves an allocated buffer behind with
m_prepared_from_image still false. On success the buffer is filled
row major: top padding rows of zeros, then per source row a left
padding run of zeros, the copied row and a right padding run, then
the bottom padding rows. -/
def make_subtitle_image_bitmap (scaledW scaledH scaledPad : Nat)
    (subW subH : Int) (pixels : List Nat) : BitmapResult :=
  if subW < 1 ∨ subW > (scaledW : Int) ∨ subH < 1 ∨ subH > (scaledH : Int) then
    ⟨false, false, []⟩
  else
    let w := subW.toNat
    let h := subH.toNat
    let lp := leftPaddingOf scaledW w
    let rp := rightPaddingOf scaledW w
    let bp := scaledPad
    let tp := topPaddingOf scaledH scaledPad h
    if (lp : Int) < 0 ∨ (rp : Int) < 0 ∨ (bp : Int) < 0 ∨ tp < 0 then
      ⟨true, false, []⟩
    else
      let row := fun j =>
        List.replicate lp 0 ++ (pixels.drop (j * w)).take w ++ List.replicate rp 0
      ⟨true, true,
        List.replicate (tp.toNat * scaledW) 0 ++
          (List.range h).flatMap row ++ List.replicate (bp * scaledW) 0⟩

/-- Visible effects show_next and hide can have on the two overlay
layers. -/
inductive LayerAction where
  | hideSubtitleLayer
  | hideDvdLayer
  | setSubtitleImage
  | setDvdImage
deriving DecidableEq, Repr

/-- Frame lifecycle state: the two prepared flags of the renderer and
a count of the live backend resources of each kind (cairo surface and
context pairs, malloc-ed bitmap buffers), leaked ones included. -/
structure RendererState where
  preparedFromText : Bool
  preparedFromImage : Bool
  liveTextSurfaces : Nat
  liveImageBuffers : Nat
deriving DecidableEq, Repr

/-- State after construction: nothing prepared, nothing allocated. -/
def initRendererState : RendererState := ⟨false, false, 0, 0⟩

/-- unprepare (source lines 353-365): frees the bitmap buffer when
prepared from image, destroys the cairo surface when prepared from
text, clearing the corresponding flag. -/
def unprepare (s : RendererState) : RendererState :=
  let s1 := if s.preparedFromImage then
    { s with liveImageBuffers := s.liveImageBuffers - 1, preparedFromImage := false }
  else s
  if s1.preparedFromText then
    { s1 with liveTextSurfaces := s1.liveTextSurfaces - 1, preparedFromText := false }
  else s1

/-- prepare on the text path (source lines 169-184 followed by the
text make_subtitle_image): unprepare first, then create the surface
unconditionally; ok abstracts whether every text_to_glyphs call
succeeded, and only then is m_prepared_from_text set. -/
def prepare_text (ok : Bool) (s : RendererState) : RendererState :=
  let s1 := unprepare s
  let s2 := { s1 with liveTextSurfaces := s1.liveTextSurfaces + 1 }
  if ok then { s2 with preparedFromText := true } else s2

/-- prepare on the bitmap path (source line 174): unprepare first,
then run the bitmap make_subtitle_image, which may allocate and may
set m_prepared_from_image. -/
def prepare_bitmap (scaledW scaledH scaledPad : Nat) (subW subH : Int)
    (pixels : List Nat) (s : RendererState) : RendererState :=
  let s1 := unprepare s
  let r := make_subtitle_image_bitmap scaledW scaledH scaledPad subW subH pixels
  if r.allocated then
    let s2 := { s1 with liveImageBuffers := s1.liveImageBuffers + 1 }
    if r.prepared then { s2 with preparedFromImage := true } else s2
  else s1

/-- show_next (source lines 334-345): deliver the prepared frame to
its layer, hide the other layer, then unprepare; with nothing
prepared nothing happens. -/
def show_next (s : RendererState) : RendererState × List LayerAction :=
  if s.preparedFromImage then
    (unprepare s, [LayerAction.hideSubtitleLayer, LayerAction.setDvdImage])
  else if s.preparedFromText then
    (unprepare s, [LayerAction.hideDvdLayer, LayerAction.setSubtitleImage])
  else (s, [])

/-- hide (source lines 347-351): hides both layers, touching no
lifecycle state. -/
def hide (s : RendererState) : RendererState × List LayerAction :=
  (s, [LayerAction.hideSubtitleLayer, LayerAction.hideDvdLayer])

/-- External calls that drive the frame lifecycle. -/
inductive Event where
  | prepText (ok : Bool)
  | prepBitmap (subW subH : Int) (pixels : List Nat)
  | showNext
  | hideBoth
deriving Repr

/-- One lifecycle transition; the scaled canvas constants are fixed
for the life of the renderer. -/
def lifecycleStep (scaledW scaledH scaledPad : Nat) (s : RendererState) :
    Event → RendererState
  | .prepText ok => prepare_text ok s
  | .prepBitmap w h px => prepare_bitmap scaledW scaledH scaledPad w h px s
  | .showNext => (show_next s).1
  | .hideBoth => (hide s).1

/-- State reached from construction by a sequence of calls. -/
def runEvents (scaledW scaledH scaledPad : Nat) (evs : List Event) : RendererState :=
  evs.foldl (lifecycleStep scaledW scaledH scaledPad) initRendererState

/-- Lowercase hexadecimal digit character for a value below 16; this
is the formatting direction that the spec declares hex2int to invert. -/
def hexDigitChar (d : Nat) : Char :=
  if d < 10 then Char.ofNat (48 + d) else Char.ofNat (87 + d)

/-- Two-digit lowercase hexadecimal rendering of a byte. -/
def hexByte (b : Nat) : List Char :=
  [hexDigitChar (b / 16), hexDigitChar (b % 16)]

/-- Six-digit lowercase hexadecimal rendering of a 24-bit value. -/
def toHex6 (n : Nat) : List Char :=
  [hexDigitChar (n / 16 ^ 5 % 16), hexDigitChar (n / 16 ^ 4 % 16),
   hexDigitChar (n / 16 ^ 3 % 16), hexDigitChar (n / 16 ^ 2 % 16),
   hexDigitChar (n / 16 % 16), hexDigitChar (n % 16)]

/-- Least multiple of 16 at or above x, the rounding the spec ascribes
to the image height. -/
def roundUp16 (x : Nat) : Nat := (x + 15) / 16 * 16

/-- Greatest multiple of 16 at or below x, the rounding the spec
ascribes to the image width. -/
def roundDown16 (x : Nat) : Nat := x / 16 * 16

theorem digitVal_hexDigitChar (d : Nat) (h : d < 16) :
    digitVal (hexDigitChar d) = d := by
  interval_cases d <;> decide

theorem toLowerChar_hexDigitChar (d : Nat) (h : d < 16) :
    toLowerChar (hexDigitChar d) = hexDigitChar d := by
  interval_cases d <;> decide

theorem isHexLower_hexDigitChar (d : Nat) (h : d < 16) :
    isHexLower (hexDigitChar d) = true := by
  interval_cases d <;> decide

/-- Dispatch of a well-formed curly color tag with abstract lowercase
hex digit characters: the chain falls through to the curly color
branch and stores the reassembled (reversed) group list. -/
theorem applyTag_curly (st : ParserState) (a1 a2 b1 b2 c1 c2 : Char)
    (ha1 : isHexLower a1 = true) (ha2 : isHexLower a2 = true)
    (hb1 : isHexLower b1 = true) (hb2 : isHexLower b2 = true)
    (hc1 : isHexLower c1 = true) (hc2 : isHexLower c2 = true)
    (la1 : toLowerChar a1 = a1) (la2 : toLowerChar a2 = a2)
    (lb1 : toLowerChar b1 = b1) (lb2 : toLowerChar b2 = b2)
    (lc1 : toLowerChar c1 = c1) (lc2 : toLowerChar c2 = c2) :
    applyTag st ['{', '\\', 'c', '&', 'h', a1, a2, b1, b2, c1, c2, '&', '}']
      = { st with color := hex2int [c1, c2, b1, b2, a1, a2] } := by
  have e1 : toLowerChar '{' = '{' := by decide
  have e2 : toLowerChar '\\' = '\\' := by decide
  have e3 : toLowerChar 'c' = 'c' := by decide
  have e4 : toLowerChar '&' = '&' := by decide
  have e5 : toLowerChar 'h' = 'h' := by decide
  have e6 : toLowerChar '}' = '}' := by decide
  simp +decide [applyTag, la1, la2, lb1, lb2, lc1, lc2, e1, e2, e3, e4, e5, e6,
    curlyColor, ha1, ha2, hb1, hb2, hc1, hc2]

theorem mask16_mod (x : Nat) : (x &&& 0xFFFFFFF0) % 16 = 0 := by
  have h : (16 : Nat) = 2 ^ 4 := by norm_num
  have h2 : (x &&& 0xFFFFFFF0) % 2 ^ 4 = (x &&& 0xFFFFFFF0) &&& (2 ^ 4 - 1) :=
    (Nat.and_pow_two_sub_one_eq_mod _ 4).symm
  rw [h, h2, Nat.and_assoc, show ((4294967280 : Nat) &&& (2 ^ 4 - 1)) = 0 from by decide,
    Nat.and_zero]

theorem mask16_eq (x : Nat) (h : x < 2 ^ 32) : x &&& 0xFFFFFFF0 = x / 16 * 16 := by
  have hM : (0xFFFFFFF0 : Nat) = (2 ^ 32 - 1) ^^^ (2 ^ 4 - 1) := by decide
  have hdiv : x / 16 * 16 = (x >>> 4) <<< 4 := by
    rw [Nat.shiftRight_eq_div_pow, Nat.shiftLeft_eq]
  apply Nat.eq_of_testBit_eq
  intro i
  rw [Nat.testBit_and, hM, Nat.testBit_xor, Nat.testBit_two_pow_sub_one,
    Nat.testBit_two_pow_sub_one, hdiv, Nat.testBit_shiftLeft, Nat.testBit_shiftRight]
  by_cases h4 : i < 4
  · have h32 : i < 32 := by omega
    have hge : ¬ (i ≥ 4) := by omega
    simp [h4, h32, hge]
  · by_cases h32 : i < 32
    · have hge : i ≥ 4 := by omega
      have he : 4 + (i - 4) = i := by omega
      simp [h4, h32, hge, he]
    · have hge : i ≥ 4 := by omega
      have hx : x.testBit i = false := Nat.testBit_lt_two_pow
        (lt_of_lt_of_le h (Nat.pow_le_pow_right (by norm_num) (by omega)))
      have hx2 : x.testBit (4 + (i - 4)) = false := by
        have he : 4 + (i - 4) = i := by omega
        rw [he, hx]
      simp [h4, h32, hge, hx, hx2]

theorem hex2int_digits (d1 d2 d3 d4 d5 d6 : Nat) (h1 : d1 < 16) (h2 : d2 < 16)
    (h3 : d3 < 16) (h4 : d4 < 16) (h5 : d5 < 16) (h6 : d6 < 16) :
    hex2int [hexDigitChar d1, hexDigitChar d2, hexDigitChar d3, hexDigitChar d4,
        hexDigitChar d5, hexDigitChar d6]
      = ((((((d1 : Int) * 16 + d2) * 16 + d3) * 16 + d4) * 16 + d5) * 16 + d6) := by
  simp [hex2int, digitVal_hexDigitChar _ h1, digitVal_hexDigitChar _ h2,
    digitVal_hexDigitChar _ h3, digitVal_hexDigitChar _ h4,
    digitVal_hexDigitChar _ h5, digitVal_hexDigitChar _ h6]
  ring

theorem glyphRunsGo_ok (g : Geometry) (measure : Font → List Char → Int)
    (sOk : Font → List Char → Bool) (hok : ∀ f t, sOk f t = true) (i : Nat) (cy : Int) :
    ∀ (rs : List SubtitleText) (j : Nat) (cx bw : Int),
      ∃ p, glyphRunsGo g measure sOk i cy j cx bw rs = some p ∧
        p.1.map (fun r => (r.lineIdx, r.runIdx, r.text))
          = (List.enumFrom j rs).map (fun q => (i, q.1, q.2.text)) := by
  intro rs
  induction rs with
  | nil => intro j cx bw; exact ⟨([], bw), rfl, rfl⟩
  | cons r rs ih =>
    intro j cx bw
    obtain ⟨p, hp, hm⟩ := ih (j + 1) (cx + measure r.font r.text) (bw + measure r.font r.text)
    refine ⟨(⟨i, j, r.text, r.font, r.color, cx + (g.padding : Int),
      cy - (g.padding / 4 : Nat)⟩ :: p.1, p.2), ?_, ?_⟩
    · simp [glyphRunsGo, hok r.font r.text, hp]
    · simp [List.enumFrom, hm]

theorem layoutLine_ok (g : Geometry) (measure : Font → List Char → Int)
    (sOk : Font → List Char → Bool) (hok : ∀ f t, sOk f t = true) (centered : Bool)
    (i : Nat) (cy : Int) (runs : List SubtitleText) :
    ∃ placed, layoutLine g measure sOk centered i cy runs = some placed ∧
      placed.map (fun r => (r.lineIdx, r.runIdx, r.text))
        = runs.enum.map (fun q => (i, q.1, q.2.text)) := by
  obtain ⟨p, hp, hm⟩ := glyphRunsGo_ok g measure sOk hok i cy runs 0
    (g.leftAlignedMargin : Int) (2 * (g.padding : Int))
  unfold layoutLine
  rw [hp]
  cases centered
  · exact ⟨p.1, rfl, hm⟩
  · refine ⟨_, rfl, ?_⟩
    simp only [List.map_map]
    rw [show (List.enum runs) = List.enumFrom 0 runs from rfl, ← hm]
    congr 1

theorem textGo_ok (g : Geometry) (centered : Bool) (measure : Font → List Char → Int)
    (sOk : Font → List Char → Bool) (parsed : List (List SubtitleText))
    (hok : ∀ f t, sOk f t = true) :
    ∀ (idxs : List Nat) (cy : Int) (acc : List PlacedRun),
      (make_subtitle_image_text.go g centered measure sOk parsed idxs cy acc).2 = true ∧
      (make_subtitle_image_text.go g centered measure sOk parsed idxs cy acc).1.map
          (fun r => (r.lineIdx, r.runIdx, r.text))
        = acc.map (fun r => (r.lineIdx, r.runIdx, r.text)) ++
            idxs.flatMap (fun i =>
              (parsed.getD i []).enum.map (fun q => (i, q.1, q.2.text))) := by
  intro idxs
  induction idxs with
  | nil => intro cy acc; simp [make_subtitle_image_text.go]
  | cons i is ih =>
    intro cy acc
    obtain ⟨placed, hp, hm⟩ := layoutLine_ok g measure sOk hok centered i cy (parsed.getD i [])
    have hrec := ih (cy - ((g.fontSize : Int) + (g.padding : Int))) (acc ++ placed)
    constructor
    · rw [make_subtitle_image_text.go, hp]
      exact hrec.1
    · rw [make_subtitle_image_text.go, hp]
      rw [hrec.2, List.map_append, hm]
      simp [List.flatMap_cons]

theorem bitmap_prepared_allocated (sW sH sP : Nat) (w h : Int) (px : List Nat)
    (hp : (make_subtitle_image_bitmap sW sH sP w h px).prepared = true) :
    (make_subtitle_image_bitmap sW sH sP w h px).allocated = true := by
  unfold make_subtitle_image_bitmap at hp ⊢
  dsimp only at hp ⊢
  split_ifs at hp ⊢
  rfl

theorem step_exclusive (sW sH sP : Nat) (s : RendererState) (e : Event)
    (hs : ¬(s.preparedFromText = true ∧ s.preparedFromImage = true)) :
    ¬((lifecycleStep sW sH sP s e).preparedFromText = true ∧
      (lifecycleStep sW sH sP s e).preparedFromImage = true) := by
  rcases s with ⟨pt, pi, lt, li⟩
  cases e <;> cases pt <;> cases pi <;>
    simp_all [lifecycleStep, prepare_text, prepare_bitmap, show_next, hide, unprepare] <;>
    split_ifs <;> simp_all

theorem runEvents_exclusive_aux (sW sH sP : Nat) (evs : List Event) :
    ∀ s : RendererState, ¬(s.preparedFromText = true ∧ s.preparedFromImage = true) →
      ¬((evs.foldl (lifecycleStep sW sH sP) s).preparedFromText = true ∧
        (evs.foldl (lifecycleStep sW sH sP) s).preparedFromImage = true) := by
  induction evs with
  | nil => intro s hs; exact hs
  | cons e es ih =>
    intro s hs
    exact ih _ (step_exclusive sW sH sP s e hs)

/-- Claim C1: the closing bold tags set bold to false only when bold
is currently true and are otherwise a no-op, the opening bold tags set
bold to true regardless of prior state, the same holds for italic,
and the line with doubled closing tags parses to exactly the runs x
in bold and y in normal with default color. -/
theorem claim_C1 :
    (∀ st : ParserState, applyTag st ['<', 'b', '>'] = { st with bold := true }) ∧
    (∀ st : ParserState, applyTag st ['{', '\\', 'b', '1', '}'] = { st with bold := true }) ∧
    (∀ st : ParserState, applyTag st ['<', '/', 'b', '>'] =
      (if st.bold then { st with bold := false } else st)) ∧
    (∀ st : ParserState, applyTag st ['{', '\\', 'b', '0', '}'] =
      (if st.bold then { st with bold := false } else st)) ∧
    (∀ st : ParserState, applyTag st ['<', 'i', '>'] = { st with italic := true }) ∧
    (∀ st : ParserState, applyTag st ['{', '\\', 'i', '1', '}'] = { st with italic := true }) ∧
    (∀ st : ParserState, applyTag st ['<', '/', 'i', '>'] =
      (if st.italic then { st with italic := false } else st)) ∧
    (∀ st : ParserState, applyTag st ['{', '\\', 'i', '0', '}'] =
      (if st.italic then { st with italic := false } else st)) ∧
    parse_lines [("</b><b>x</b></b>y").toList] =
      [[⟨['x'], Font.bold, -1⟩, ⟨['y'], Font.normal, -1⟩]] := by
  refine ⟨?_, ?_, ?_, ?_, ?_, ?_, ?_, ?_, by decide⟩ <;>
    (intro st; rcases st with ⟨b, i, c⟩) <;> cases b <;> cases i <;>
      simp +decide [applyTag, curlyColor]

/-- Claim C2: a curly color tag carrying three 2-digit lowercase hex
byte groups sets the current color to the 24-bit value with the groups
reassembled in reversed order (BGR to RGB); in particular the tag with
groups 00 00 ff resolves to the color 0xff0000. -/
theorem claim_C2 :
    (∀ (st : ParserState) (B G R : Nat), B < 256 → G < 256 → R < 256 →
      applyTag st (['{', '\\', 'c', '&', 'h'] ++ hexByte B ++ hexByte G ++ hexByte R ++
          ['&', '}'])
        = { st with color := (R : Int) * 65536 + (G : Int) * 256 + (B : Int) }) ∧
    applyTag initParserState
        ['{', '\\', 'c', '&', 'h', '0', '0', '0', '0', 'f', 'f', '&', '}']
      = { initParserState with color := 0xff0000 } := by
  constructor
  · intro st B G R hB hG hR
    have q1 : B / 16 < 16 := by omega
    have q2 : B % 16 < 16 := by omega
    have q3 : G / 16 < 16 := by omega
    have q4 : G % 16 < 16 := by omega
    have q5 : R / 16 < 16 := by omega
    have q6 : R % 16 < 16 := by omega
    have happ := applyTag_curly st (hexDigitChar (B / 16)) (hexDigitChar (B % 16))
      (hexDigitChar (G / 16)) (hexDigitChar (G % 16))
      (hexDigitChar (R / 16)) (hexDigitChar (R % 16))
      (isHexLower_hexDigitChar _ q1) (isHexLower_hexDigitChar _ q2)
      (isHexLower_hexDigitChar _ q3) (isHexLower_hexDigitChar _ q4)
      (isHexLower_hexDigitChar _ q5) (isHexLower_hexDigitChar _ q6)
      (toLowerChar_hexDigitChar _ q1) (toLowerChar_hexDigitChar _ q2)
      (toLowerChar_hexDigitChar _ q3) (toLowerChar_hexDigitChar _ q4)
      (toLowerChar_hexDigitChar _ q5) (toLowerChar_hexDigitChar _ q6)
    have hlist : (['{', '\\', 'c', '&', 'h'] ++ hexByte B ++ hexByte G ++ hexByte R ++
        ['&', '}'])
        = ['{', '\\', 'c', '&', 'h', hexDigitChar (B / 16), hexDigitChar (B % 16),
            hexDigitChar (G / 16), hexDigitChar (G % 16), hexDigitChar (R / 16),
            hexDigitChar (R % 16), '&', '}'] := by
      simp [hexByte]
    rw [hlist, happ]
    have hv : hex2int [hexDigitChar (R / 16), hexDigitChar (R % 16),
        hexDigitChar (G / 16), hexDigitChar (G % 16), hexDigitChar (B / 16),
        hexDigitChar (B % 16)]
        = (R : Int) * 65536 + (G : Int) * 256 + (B : Int) := by
      rw [hex2int_digits _ _ _ _ _ _ q5 q6 q3 q4 q1 q2]
      omega
    rw [hv]
  · decide

/-- Claim C2 witness: the general curly color theorem applied at the
concrete byte groups 00 00 ff. -/
theorem claim_C2_witness :
    applyTag initParserState
        (['{', '\\', 'c', '&', 'h'] ++ hexByte 0 ++ hexByte 0 ++ hexByte 255 ++ ['&', '}'])
      = { initParserState with
            color := ((255 : Nat) : Int) * 65536 + ((0 : Nat) : Int) * 256 + ((0 : Nat) : Int) } :=
  claim_C2.1 initParserState 0 0 255 (by norm_num) (by norm_num) (by norm_num)

/-- Claim C3: for screens wider and taller than 200 with at most four
lines, the derived image height and width are multiples of 16, the
height being max_lines times line_height plus 5 rounded up to the next
multiple of 16 and the width being screen_width minus 100 rounded down
to the previous multiple of 16; the bounds on the font size and screen
width keep the C int arithmetic free of overflow. -/
theorem claim_C3 (sw sh fs ml : Nat) (hsw : 200 < sw) (hsh : 200 < sh)
    (hml1 : 1 ≤ ml) (hml4 : ml ≤ 4) (hfs : fs < 2 ^ 24) (hsw2 : sw < 2 ^ 31) :
    (deriveGeometry sw sh fs ml).imageHeight % 16 = 0 ∧
    (deriveGeometry sw sh fs ml).imageWidth % 16 = 0 ∧
    (deriveGeometry sw sh fs ml).imageHeight
      = roundUp16 (ml * (deriveGeometry sw sh fs ml).lineHeight + 5) ∧
    (deriveGeometry sw sh fs ml).imageWidth = roundDown16 (sw - 100) := by
  have hb : ml * (fs + fs / 4) ≤ 4 * (fs + fs / 4) := Nat.mul_le_mul_right _ hml4
  refine ⟨?_, ?_, ?_, ?_⟩ <;> simp only [deriveGeometry, roundUp16, roundDown16]
  · exact mask16_mod _
  · exact mask16_mod _
  · rw [mask16_eq _ (by omega)]
  · rw [mask16_eq _ (by omega)]

/-- Claim C3 witness: the geometry theorem applied at a 1920 by 1080
screen with font size 59 and three lines. -/
theorem claim_C3_witness :
    (deriveGeometry 1920 1080 59 3).imageHeight % 16 = 0 ∧
    (deriveGeometry 1920 1080 59 3).imageWidth % 16 = 0 ∧
    (deriveGeometry 1920 1080 59 3).imageHeight
      = roundUp16 (3 * (deriveGeometry 1920 1080 59 3).lineHeight + 5) ∧
    (deriveGeometry 1920 1080 59 3).imageWidth = roundDown16 (1920 - 100) :=
  claim_C3 1920 1080 59 3 (by norm_num) (by norm_num) (by norm_num) (by norm_num)
    (by norm_num) (by norm_num)

/-- Claim C4: when every shaping call succeeds, the rendered runs are
exactly those of the first min(n, max_lines) input lines (traversed
bottom to top), every rendered run has a line index below that bound,
and the prepared flag is set. -/
theorem claim_C4 (g : Geometry) (centered : Bool) (measure : Font → List Char → Int)
    (shapeOk : Font → List Char → Bool) (parsed : List (List SubtitleText))
    (hok : ∀ f t, shapeOk f t = true) :
    (make_subtitle_image_text g centered measure shapeOk parsed).2 = true ∧
    (make_subtitle_image_text g centered measure shapeOk parsed).1.map
        (fun r => (r.lineIdx, r.runIdx, r.text))
      = ((List.range (min parsed.length g.maxLines)).reverse).flatMap
          (fun i => (parsed.getD i []).enum.map (fun q => (i, q.1, q.2.text))) ∧
    ∀ r ∈ (make_subtitle_image_text g centered measure shapeOk parsed).1,
      r.lineIdx < min parsed.length g.maxLines := by
  have h := textGo_ok g centered measure shapeOk parsed hok
    ((List.range (min parsed.length g.maxLines)).reverse)
    ((g.imageHeight : Int) - (g.padding : Int)) []
  have hdef : make_subtitle_image_text g centered measure shapeOk parsed
      = make_subtitle_image_text.go g centered measure shapeOk parsed
          ((List.range (min parsed.length g.maxLines)).reverse)
          ((g.imageHeight : Int) - (g.padding : Int)) [] := rfl
  refine ⟨by rw [hdef]; exact h.1, by rw [hdef]; simpa using h.2, ?_⟩
  intro r hr
  have hmem : (r.lineIdx, r.runIdx, r.text) ∈
      ((List.range (min parsed.length g.maxLines)).reverse).flatMap
        (fun i => (parsed.getD i []).enum.map (fun q => (i, q.1, q.2.text))) := by
    rw [hdef] at hr
    have hmm := List.mem_map_of_mem (fun r : PlacedRun => (r.lineIdx, r.runIdx, r.text)) hr
    rw [h.2] at hmm
    simpa using hmm
  simp only [List.mem_flatMap, List.mem_reverse, List.mem_range, List.mem_map] at hmem
  obtain ⟨i, hi, q, hq, heq⟩ := hmem
  have : i = r.lineIdx := congrArg Prod.fst heq
  omega

/-- Claim C4 witness: four one-run input lines under max_lines = 2
render exactly lines 0 and 1 and drop lines 2 and 3. -/
theorem claim_C4_witness :
    (make_subtitle_image_text (deriveGeometry 1280 720 40 2) true (fun _ _ => 50)
        (fun _ _ => true)
        [[⟨['a'], Font.normal, -1⟩], [⟨['b'], Font.normal, -1⟩],
          [⟨['c'], Font.normal, -1⟩], [⟨['d'], Font.normal, -1⟩]]).2 = true ∧
    (make_subtitle_image_text (deriveGeometry 1280 720 40 2) true (fun _ _ => 50)
        (fun _ _ => true)
        [[⟨['a'], Font.normal, -1⟩], [⟨['b'], Font.normal, -1⟩],
          [⟨['c'], Font.normal, -1⟩], [⟨['d'], Font.normal, -1⟩]]).1.map
        (fun r => (r.lineIdx, r.runIdx, r.text))
      = ((List.range (min
            ([[⟨['a'], Font.normal, -1⟩], [⟨['b'], Font.normal, -1⟩],
              [⟨['c'], Font.normal, -1⟩],
              [⟨['d'], Font.normal, -1⟩]] : List (List SubtitleText)).length
            (deriveGeometry 1280 720 40 2).maxLines)).reverse).flatMap
          (fun i => (([[⟨['a'], Font.normal, -1⟩], [⟨['b'], Font.normal, -1⟩],
              [⟨['c'], Font.normal, -1⟩],
              [⟨['d'], Font.normal, -1⟩]] : List (List SubtitleText)).getD i []).enum.map
            (fun q => (i, q.1, q.2.text))) ∧
    ∀ r ∈ (make_subtitle_image_text (deriveGeometry 1280 720 40 2) true (fun _ _ => 50)
        (fun _ _ => true)
        [[⟨['a'], Font.normal, -1⟩], [⟨['b'], Font.normal, -1⟩],
          [⟨['c'], Font.normal, -1⟩], [⟨['d'], Font.normal, -1⟩]]).1,
      r.lineIdx < min
        ([[⟨['a'], Font.normal, -1⟩], [⟨['b'], Font.normal, -1⟩],
          [⟨['c'], Font.normal, -1⟩],
          [⟨['d'], Font.normal, -1⟩]] : List (List SubtitleText)).length
        (deriveGeometry 1280 720 40 2).maxLines :=
  claim_C4 (deriveGeometry 1280 720 40 2) true (fun _ _ => 50) (fun _ _ => true)
    [[⟨['a'], Font.normal, -1⟩], [⟨['b'], Font.normal, -1⟩],
      [⟨['c'], Font.normal, -1⟩], [⟨['d'], Font.normal, -1⟩]] (fun _ _ => rfl)

/-- Claim C5, evaluated at the failing input: a 10 by 50 bitmap on a
100 by 50 scaled canvas with scaled padding 5 passes the dimension
guard, so the buffer is malloc-ed, and only then fails the padding
guard, leaving the allocation behind with no frame prepared; a bitmap
failing the dimension guard itself is rejected with no allocation. -/
theorem claim_C5 :
    make_subtitle_image_bitmap 100 50 5 10 50 (List.replicate 500 1)
      = ⟨true, false, []⟩ ∧
    make_subtitle_image_bitmap 100 50 5 101 10 (List.replicate 1010 1)
      = ⟨false, false, []⟩ := by
  constructor <;> decide

/-- Claim C6 counterexample: the 10 wide canvas with a 3 wide bitmap
is accepted and has odd slack 7, yet the right padding is 3 and the
left padding is 4, so the extra pixel goes to the left, not the right. -/
theorem claim_C6_counterexample :
    (make_subtitle_image_bitmap 10 100 5 3 10 (List.replicate 30 1)).prepared = true ∧
    (10 - 3) % 2 = 1 ∧
    ¬ rightPaddingOf 10 3 = leftPaddingOf 10 3 + 1 := by
  refine ⟨by decide, by decide, by decide⟩

/-- Claim C6 as amended: for accepted dimensions the paddings satisfy
left = scaled_width / 2 - sub_width / 2 and left + sub_width + right =
scaled_width, and with odd slack the extra pixel goes to the right
exactly when scaled_width is odd and to the left when scaled_width is
even. -/
theorem claim_C6 (scaledW subW : Nat) (h1 : 1 ≤ subW) (h2 : subW ≤ scaledW) :
    leftPaddingOf scaledW subW = scaledW / 2 - subW / 2 ∧
    leftPaddingOf scaledW subW + subW + rightPaddingOf scaledW subW = scaledW ∧
    ((scaledW - subW) % 2 = 1 →
      (scaledW % 2 = 1 → rightPaddingOf scaledW subW = leftPaddingOf scaledW subW + 1) ∧
      (scaledW % 2 = 0 → leftPaddingOf scaledW subW = rightPaddingOf scaledW subW + 1)) := by
  simp only [leftPaddingOf, rightPaddingOf]
  refine ⟨trivial, by omega, fun hodd => ⟨fun he => by omega, fun he => by omega⟩⟩

/-- Claim C6 witness: the amended padding theorem applied at the
canvas width 10 with bitmap width 3. -/
theorem claim_C6_witness :
    leftPaddingOf 10 3 = 10 / 2 - 3 / 2 ∧
    leftPaddingOf 10 3 + 3 + rightPaddingOf 10 3 = 10 ∧
    ((10 - 3) % 2 = 1 →
      (10 % 2 = 1 → rightPaddingOf 10 3 = leftPaddingOf 10 3 + 1) ∧
      (10 % 2 = 0 → leftPaddingOf 10 3 = rightPaddingOf 10 3 + 1)) :=
  claim_C6 10 3 (by norm_num) (by norm_num)

/-- Claim C7, evaluated at the failing input: on a 1920 by 1080 screen
the left aligned margin is 254; a centered single run of advance 100
is placed at glyph origin x = 1108, leaving 1108 pixels on the left of
the run and 600 on the right of it, a mismatch of twice the left
aligned margin instead of the claimed agreement within one pixel. -/
theorem claim_C7 :
    (deriveGeometry 1920 1080 59 3).leftAlignedMargin = 254 ∧
    (make_subtitle_image_text (deriveGeometry 1920 1080 59 3) true
        (fun _ _ => 100) (fun _ _ => true) [[⟨['h', 'i'], Font.normal, -1⟩]]).1.map
        (fun r => r.x) = [1108] ∧
    ((deriveGeometry 1920 1080 59 3).imageWidth : Int) - (1108 + 100) = 600 ∧
    (1108 : Int) - 600 = 2 * ((deriveGeometry 1920 1080 59 3).leftAlignedMargin : Int) := by
  refine ⟨by decide, by decide, by decide, by decide⟩

/-- Claim C8: in every state reachable by prepare, show and hide
calls, the prepared-from-text and prepared-from-image flags are never
both set, and preparing from text and then from an accepted bitmap
without an intervening show ends with exactly the one bitmap buffer
allocated (the text surface having been released by the second
prepare). -/
theorem claim_C8 :
    (∀ (sW sH sP : Nat) (evs : List Event),
      ¬((runEvents sW sH sP evs).preparedFromText = true ∧
        (runEvents sW sH sP evs).preparedFromImage = true)) ∧
    (∀ (sW sH sP : Nat) (w h : Int) (px : List Nat),
      (make_subtitle_image_bitmap sW sH sP w h px).prepared = true →
      runEvents sW sH sP [Event.prepText true, Event.prepBitmap w h px]
        = ⟨false, true, 0, 1⟩) := by
  constructor
  · intro sW sH sP evs
    exact runEvents_exclusive_aux sW sH sP evs initRendererState
      (by simp [initRendererState])
  · intro sW sH sP w h px hp
    have ha := bitmap_prepared_allocated sW sH sP w h px hp
    simp [runEvents, lifecycleStep, prepare_text, prepare_bitmap, unprepare,
      initRendererState, ha, hp]

/-- Claim C8 witness: the prepare-text then prepare-bitmap sequence
run with a concrete accepted bitmap. -/
theorem claim_C8_witness :
    runEvents 100 50 5 [Event.prepText true, Event.prepBitmap 10 10 (List.replicate 100 7)]
      = ⟨false, true, 0, 1⟩ :=
  claim_C8.2 100 50 5 10 10 (List.replicate 100 7) (by decide)

/-- Claim C9: hex2int maps the 6 lowercase hex digit characters of
values d1..d6 to the base 16 value with those digits in order, and it
inverts 6-digit lowercase hex formatting on every 24-bit value. -/
theorem claim_C9 :
    (∀ d1 d2 d3 d4 d5 d6 : Nat, d1 < 16 → d2 < 16 → d3 < 16 → d4 < 16 → d5 < 16 →
      d6 < 16 →
      hex2int [hexDigitChar d1, hexDigitChar d2, hexDigitChar d3, hexDigitChar d4,
          hexDigitChar d5, hexDigitChar d6]
        = ((((((d1 : Int) * 16 + d2) * 16 + d3) * 16 + d4) * 16 + d5) * 16 + d6)) ∧
    (∀ n : Nat, n < 2 ^ 24 → hex2int (toHex6 n) = (n : Int)) := by
  refine ⟨hex2int_digits, ?_⟩
  intro n hn
  have q1 : n / 16 ^ 5 % 16 < 16 := by omega
  have q2 : n / 16 ^ 4 % 16 < 16 := by omega
  have q3 : n / 16 ^ 3 % 16 < 16 := by omega
  have q4 : n / 16 ^ 2 % 16 < 16 := by omega
  have q5 : n / 16 % 16 < 16 := by omega
  have q6 : n % 16 < 16 := by omega
  rw [toHex6, hex2int_digits _ _ _ _ _ _ q1 q2 q3 q4 q5 q6]
  omega

/-- Claim C9 witness: the digit theorem at ff0000 and the inverse
theorem at 11259375, which is 0xabcdef. -/
theorem claim_C9_witness :
    hex2int [hexDigitChar 15, hexDigitChar 15, hexDigitChar 0, hexDigitChar 0,
        hexDigitChar 0, hexDigitChar 0]
      = ((((((15 : Int) * 16 + 15) * 16 + 0) * 16 + 0) * 16 + 0) * 16 + 0) ∧
    hex2int (toHex6 11259375) = ((11259375 : Nat) : Int) :=
  ⟨claim_C9.1 15 15 0 0 0 0 (by norm_num) (by norm_num) (by norm_num) (by norm_num)
      (by norm_num) (by norm_num),
    claim_C9.2 11259375 (by norm_num)⟩

/-- Claim C10: with neither frame prepared, show_next changes nothing
and performs no layer action. -/
theorem claim_C10 (s : RendererState) (h1 : s.preparedFromText = false)
    (h2 : s.preparedFromImage = false) : show_next s = (s, []) := by
  simp [show_next, h1, h2]

/-- Claim C10 witness: show_next on the freshly constructed renderer
state is a no-op. -/
theorem claim_C10_witness : show_next initRendererState = (initRendererState, []) :=
  claim_C10 initRendererState rfl rfl

end SubtitleRendererModel
